import Mathlib

/-!
Verification of the trend/history core of the scientific-computing dashboard.

The embedding models `scripts/fetch_stats.py` (history store `update_history`,
trend engine `calculate_trends` with its helpers) and the failure-recovery
paths of `scripts/fetch_wcg_stats.py` / `build_current_stats`.

Modelling conventions:
* Calendar dates are day numbers (`Int`).  The Python code stores ISO `YYYY-MM-DD`
  strings and compares them lexicographically, which agrees with chronological
  order, so an `Int` day number is a faithful model of both comparison and
  `timedelta` arithmetic.
* Python dicts with optional keys are association lists (`List (String × Int)`);
  `d.get(k, v)` is `(l.lookup k).getD v` and `d.get(k)` is `l.lookup k`.
* Python ints are `Int`.  `round(a / b)` on an exact quotient is round-half-to-even
  (`pyRound`), `//` is floor division (`Int.fdiv`).
* Python's stable `list.sort(key=...)` (and `reverse=True`) is `List.mergeSort`
  with the corresponding (reversed) boolean comparison; both are stable sorts.
* The ambient clock `date.today()`, which the Python code reads inside the trend
  engine, is an explicit `today : Int` parameter.
-/

namespace Dashboard

/-- String keys used by the history entries (kept as named constants). -/
def boincCreditsKey : String := "boinc_credits"

def fahScoreKey : String := "fah_score"

def insufficientStatus : String := "insufficient_data"

def insufficientMessage : String := "Need at least 2 days of data for trends"

/-- One history entry (`create_history_entry` produces `date`, top-level metric
counters and a nested `projects` dict; entries loaded from disk may miss keys). -/
structure HistEntry where
  date : Int
  metrics : List (String × Int)
  projects : List (String × Int)
deriving DecidableEq

/-- Current per-project stats as far as `calculate_trends` reads them
(`proj['name']`, `proj.get('credits', 0)`). -/
structure CurProject where
  name : String
  credits : Int
deriving DecidableEq

/-- Current snapshot as far as `calculate_trends` reads it:
`current_stats['totals']['boinc_credits']`,
`current_stats.get('folding_at_home', {}).get('score', 0)` (0 when absent),
and the `projects` dict. -/
structure CurrentStats where
  boinc_credits : Int
  fah_score : Int
  projects : List (String × CurProject)
deriving DecidableEq

/-- Python `round(num / den)` for integers `num`, `den` with `0 < den`:
round half to even on the exact rational `num / den`. -/
def pyRound (num den : Int) : Int :=
  let q := num.fdiv den
  let r := num - q * den
  if 2 * r < den then q
  else if den < 2 * r then q + 1
  else if q % 2 = 0 then q else q + 1

/-- Python `x or y` on an optional int (`None` and `0` are falsy). -/
def pyOrInt (a : Option Int) (b : Int) : Int :=
  match a with
  | some v => if v = 0 then b else v
  | none => b

/-- `fetch_stats.py` line 18: `HISTORY_MAX_DAYS = 365`. -/
def HISTORY_MAX_DAYS : Int := 365

/-- `fetch_stats.py` lines 276-295 (`update_history`): drop entries carrying the
new entry's date, append the new entry, sort ascending by date (stable), trim to
the retention window `today - HISTORY_MAX_DAYS`. -/
def update_history (today : Int) (existing : List HistEntry) (new_entry : HistEntry) :
    List HistEntry :=
  (((existing.filter (fun h => h.date != new_entry.date)) ++ [new_entry]).mergeSort
      (fun a b => decide (a.date ≤ b.date))).filter
    (fun h => decide (today - HISTORY_MAX_DAYS ≤ h.date))

/-- `fetch_stats.py` lines 317-323 (`get_value_days_ago`): last entry dated on or
before `today - days`; its `key` metric defaulting to `0` (`.get(key, 0)`);
`None` when no such entry exists. -/
def get_value_days_ago (today : Int) (history : List HistEntry) (days : Int)
    (key : String) : Option Int :=
  let target := today - days
  let candidates := history.filter (fun h => decide (h.date ≤ target))
  match candidates.getLast? with
  | some h => some ((h.metrics.lookup key).getD 0)
  | none => none

/-- `fetch_stats.py` lines 407-411: the 30-day lookback for one sub-project,
`candidates[-1].get('projects', {}).get(key)` — absent key stays absent. -/
def get_project_value_30d_ago (today : Int) (history : List HistEntry)
    (key : String) : Option Int :=
  let target := today - 30
  let candidates := history.filter (fun h => decide (h.date ≤ target))
  match candidates.getLast? with
  | some h => h.projects.lookup key
  | none => none

/-- The `boinc` sub-dict of the trend report; a `none` field models an absent key. -/
structure BoincTrends where
  last_7_days : Option Int
  avg_per_day_7d : Option Int
  last_30_days : Option Int
  avg_per_day_30d : Option Int
  last_90_days : Option Int
  avg_per_day_90d : Option Int
  avg_per_day_alltime : Option Int
deriving DecidableEq

/-- The `fah` sub-dict of the trend report. -/
structure FahTrends where
  last_7_days : Option Int
  avg_per_day_7d : Option Int
  last_30_days : Option Int
  avg_per_day_30d : Option Int
deriving DecidableEq

/-- One milestone projection (`target_formatted`, a display string, is omitted). -/
structure Milestone where
  target : Int
  remaining : Int
  days_to_reach : Int
  estimated_date : Int
deriving DecidableEq

/-- One entry of `most_active_projects`. -/
structure ActiveProject where
  key : String
  name : String
  gain_30d : Int
  avg_per_day : Int
deriving DecidableEq

/-- The full trend report; keys absent from the Python dict are `none`. -/
structure TrendReport where
  data_points : Nat
  history_start : Option Int
  history_end : Option Int
  status : Option String
  message : Option String
  boinc : Option BoincTrends
  milestones : Option (List Milestone)
  fah : Option FahTrends
  most_active_projects : Option (List ActiveProject)
deriving DecidableEq

/-- `fetch_stats.py` lines 325-352: the `boinc_trends` dict.  Each window block
runs only when the lookback is non-`None`; the all-time block (lines 346-352)
reads `history[0]`, guarded by `len(history) >= 2` and `days_tracked > 0`,
with `first_entry.get('boinc_credits', current_boinc)`. -/
def boinc_trends_of (today : Int) (history : List HistEntry) (current_boinc : Int) :
    BoincTrends :=
  let b7 := get_value_days_ago today history 7 boincCreditsKey
  let b30 := get_value_days_ago today history 30 boincCreditsKey
  let b90 := get_value_days_ago today history 90 boincCreditsKey
  let alltime : Option Int :=
    if 2 ≤ history.length then
      match history.head? with
      | some first_entry =>
          if 0 < today - first_entry.date then
            some (pyRound
              (current_boinc - (first_entry.metrics.lookup boincCreditsKey).getD current_boinc)
              (today - first_entry.date))
          else none
      | none => none
    else none
  { last_7_days := b7.map (fun v => current_boinc - v)
    avg_per_day_7d := b7.map (fun v => pyRound (current_boinc - v) 7)
    last_30_days := b30.map (fun v => current_boinc - v)
    avg_per_day_30d := b30.map (fun v => pyRound (current_boinc - v) 30)
    last_90_days := b90.map (fun v => current_boinc - v)
    avg_per_day_90d := b90.map (fun v => pyRound (current_boinc - v) 90)
    avg_per_day_alltime := alltime }

/-- `fetch_stats.py` line 358: `milestone_targets`. -/
def milestone_targets : List Int := [40000000, 50000000, 75000000, 100000000]

/-- `fetch_stats.py` lines 356-382: milestone projections.  `daily_avg` is the
Python `or`-chain over the 30-day, 7-day and all-time averages (so a present
but zero value falls through); projections are emitted only when
`daily_avg > 0`, one per target still above the current credits. -/
def milestones_of (today : Int) (history : List HistEntry) (current_boinc : Int) :
    List Milestone :=
  let bt := boinc_trends_of today history current_boinc
  let daily_avg :=
    pyOrInt bt.avg_per_day_30d (pyOrInt bt.avg_per_day_7d (pyOrInt bt.avg_per_day_alltime 0))
  if 0 < daily_avg then
    (milestone_targets.filter (fun target => decide (current_boinc < target))).map
      (fun target =>
        let remaining := target - current_boinc
        let days_to_target := remaining.fdiv daily_avg
        { target := target
          remaining := remaining
          days_to_reach := days_to_target
          estimated_date := today + days_to_target })
  else []

/-- `fetch_stats.py` lines 384-397: the `fah_trends` dict.  Unlike the BOINC
windows, each block additionally requires the looked-up value to be `> 0`. -/
def fah_trends_of (today : Int) (history : List HistEntry) (current_fah : Int) :
    FahTrends :=
  let f7 := get_value_days_ago today history 7 fahScoreKey
  let f30 := get_value_days_ago today history 30 fahScoreKey
  { last_7_days :=
      match f7 with
      | some v => if 0 < v then some (current_fah - v) else none
      | none => none
    avg_per_day_7d :=
      match f7 with
      | some v => if 0 < v then some (pyRound (current_fah - v) 7) else none
      | none => none
    last_30_days :=
      match f30 with
      | some v => if 0 < v then some (current_fah - v) else none
      | none => none
    avg_per_day_30d :=
      match f30 with
      | some v => if 0 < v then some (pyRound (current_fah - v) 30) else none
      | none => none }

/-- `fetch_stats.py` lines 400-421: the unsorted `project_activity` list, in the
encounter order of `current_stats['projects']`.  A project is skipped when its
current credits equal 0, when the 30-day lookback has no entry or lacks the
sub-project key, or when the gain is not strictly positive. -/
def project_activity (today : Int) (history : List HistEntry) (cur : CurrentStats) :
    List ActiveProject :=
  cur.projects.filterMap (fun kp =>
    if kp.2.credits = (0 : Int) then none
    else
      match get_project_value_30d_ago today history kp.1 with
      | some credits_30d_ago =>
          let gain := kp.2.credits - credits_30d_ago
          if (0 : Int) < gain then
            some { key := kp.1, name := kp.2.name, gain_30d := gain
                   avg_per_day := pyRound gain 30 }
          else none
      | none => none)

/-- `fetch_stats.py` lines 423-425: stable descending sort by `gain_30d`
(`sort(key=..., reverse=True)`), then the top 5. -/
def most_active_of (today : Int) (history : List HistEntry) (cur : CurrentStats) :
    List ActiveProject :=
  ((project_activity today history cur).mergeSort
      (fun a b => decide (b.gain_30d ≤ a.gain_30d))).take 5

/-- `fetch_stats.py` lines 298-427 (`calculate_trends`): the header fields are
always present; with fewer than 2 history entries the insufficient-data report
is returned; otherwise the trend blocks above are assembled. -/
def calculate_trends (today : Int) (history : List HistEntry) (current_stats : CurrentStats) :
    TrendReport :=
  let data_points := history.length
  let history_start := history.head?.map (fun h => h.date)
  let history_end := history.getLast?.map (fun h => h.date)
  if history.length < 2 then
    { data_points := data_points
      history_start := history_start
      history_end := history_end
      status := some insufficientStatus
      message := some insufficientMessage
      boinc := none
      milestones := none
      fah := none
      most_active_projects := none }
  else
    { data_points := data_points
      history_start := history_start
      history_end := history_end
      status := none
      message := none
      boinc := some (boinc_trends_of today history current_stats.boinc_credits)
      milestones := some (milestones_of today history current_stats.boinc_credits)
      fah := some (fah_trends_of today history current_stats.fah_score)
      most_active_projects := some (most_active_of today history current_stats) }

/-- The part of one project's `config.json` entry read by the credit-recovery
logic of `build_current_stats` (`proj_config.get('fallback_credits')`). -/
structure ProjConfig where
  name : String
  fallback_credits : Option Int
deriving DecidableEq

/-- `fetch_stats.py` lines 193-202 (`build_current_stats`): a successful fetch
(`live_data`) yields its credits with `live = True`; a failed fetch falls back
to `fallback_credits` when that key is present and truthy (non-zero), else to
`0`, with `live = False` either way.  Returns `(credits, live)`. -/
def project_live_credits (cfg : ProjConfig) (live_data : Option Int) : Int × Bool :=
  match live_data with
  | some credits => (credits, true)
  | none =>
      match cfg.fallback_credits with
      | some fb => if fb = (0 : Int) then ((0 : Int), false) else (fb, false)
      | none => ((0 : Int), false)

/-- One result record of the WCG API (`fetch_wcg_stats.py`), integer fields only. -/
structure WcgResult where
  points : Int
  runTime : Int
  sentTime : Int
deriving DecidableEq

/-- The integer core of the WCG statistics record (`calculate_statistics`);
the derived float fields (hours/days/CPU-years) are display-only roundings of
`total_runtime` and are not modelled. -/
structure WcgStats where
  total_results : Nat
  total_points : Int
  total_runtime : Int
  latest_sent : Option Int
deriving DecidableEq

/-- `fetch_wcg_stats.py` lines 41-80 (`calculate_statistics`): `data.get('results', [])`;
an empty result list yields the all-zero record; otherwise sums and the
`sentTime` of the first maximal result (Python `max` keeps the first maximum). -/
def calculate_statistics (results : List WcgResult) : WcgStats :=
  match results with
  | [] =>
      { total_results := 0, total_points := 0, total_runtime := 0, latest_sent := none }
  | r0 :: rest =>
      let latest := rest.foldl (fun best r => if best.sentTime < r.sentTime then r else best) r0
      { total_results := (r0 :: rest).length
        total_points := ((r0 :: rest).map (fun r => r.points)).sum
        total_runtime := ((r0 :: rest).map (fun r => r.runTime)).sum
        latest_sent := some latest.sentTime }

/-- The message printed by `fetch_wcg_stats.py` line 326 before `exit(1)`. -/
def wcgNoDataMessage : String := "No data received from API"

/-- The JSON object returned by a successful WCG fetch, as far as the script
reads it: the optional `results` key.  A fetch that raises `RequestException`
returns the empty dict `{}`, modelled as `none` at the call site. -/
structure WcgData where
  results : Option (List WcgResult)
deriving DecidableEq

/-- `fetch_wcg_stats.py` lines 322-330 (`main`): `data = fetch_wcg_stats(...)`
(the empty dict `{}`, i.e. `none`, on any request failure), then
`if not data: exit(1)` — the run aborts — else the statistics are computed. -/
def wcg_run (fetched : Option WcgData) : Except String WcgStats :=
  match fetched with
  | none => Except.error wcgNoDataMessage
  | some data => Except.ok (calculate_statistics (data.results.getD []))

/-! ### Helper lemmas -/

/-- In a strictly date-sorted list, the last entry passing the `date ≤ t` filter
is the (unique) maximal entry with `date ≤ t`. -/
theorem filter_le_getLast_of_max {t : Int} :
    ∀ {l : List HistEntry}, l.Pairwise (fun a b => a.date < b.date) →
      ∀ {e : HistEntry}, e ∈ l → e.date ≤ t →
        (∀ e' ∈ l, e'.date ≤ t → e'.date ≤ e.date) →
        (l.filter (fun h => decide (h.date ≤ t))).getLast? = some e := by
  intro l
  induction l with
  | nil =>
      intro _ e he
      exact absurd he (List.not_mem_nil e)
  | cons a rest ih =>
      intro hl e he het hmax
      have hrel := (List.pairwise_cons.mp hl).1
      have htail := (List.pairwise_cons.mp hl).2
      rcases List.mem_cons.mp he with rfl | hmem
      · have hrest : rest.filter (fun h => decide (h.date ≤ t)) = [] := by
          rw [List.filter_eq_nil_iff]
          intro x hx hxt
          simp only [decide_eq_true_eq] at hxt
          have h1 := hmax x (List.mem_cons_of_mem _ hx) hxt
          have h2 := hrel x hx
          omega
        rw [List.filter_cons_of_pos (by simpa using het), hrest]
        simp
      · have hat : a.date ≤ t := by
          have := hrel e hmem
          omega
        have hmem' : e ∈ rest.filter (fun h => decide (h.date ≤ t)) :=
          List.mem_filter.mpr ⟨hmem, by simpa using het⟩
        have hne : rest.filter (fun h => decide (h.date ≤ t)) ≠ [] := by
          intro h0
          rw [h0] at hmem'
          exact absurd hmem' (List.not_mem_nil e)
        obtain ⟨y, ys, hf⟩ := List.exists_cons_of_ne_nil hne
        rw [List.filter_cons_of_pos (by simpa using hat), hf, List.getLast?_cons_cons, ← hf]
        exact ih htail hmem het fun x hx hxt => hmax x (List.mem_cons_of_mem a hx) hxt

/-! ### Example inputs used by witnesses and counterexamples -/

/-- An empty current snapshot. -/
def cur0 : CurrentStats := { boinc_credits := 0, fah_score := 0, projects := [] }

/-- The spec's window example: `[{date: today-10, credits: 100}, {date: today, credits: 250}]`. -/
def histWin : List HistEntry :=
  [ { date := -10, metrics := [(boincCreditsKey, 100)], projects := [] }
  , { date := 0, metrics := [(boincCreditsKey, 250)], projects := [] } ]

/-- Current snapshot with 250 BOINC credits. -/
def curWin : CurrentStats := { boinc_credits := 250, fah_score := 0, projects := [] }

/-- A single history entry that lacks the `boinc_credits` key. -/
def histNoKey : List HistEntry := [ { date := -10, metrics := [], projects := [] } ]

/-- Sorted two-entry history for the C1 witness. -/
def histC1 : List HistEntry :=
  [ { date := -20, metrics := [(boincCreditsKey, 5)], projects := [] }
  , { date := -3, metrics := [], projects := [] } ]

/-- Two history entries sharing one date (for the C6 counterexample). -/
def histDupDate : List HistEntry :=
  [ { date := -5, metrics := [(boincCreditsKey, 10)], projects := [] }
  , { date := -5, metrics := [(boincCreditsKey, 20)], projects := [] } ]

/-- A snapshot entry dated `today = 0`, as `create_history_entry` produces. -/
def newEntryToday : HistEntry := { date := 0, metrics := [], projects := [] }

/-- An unsorted input series with distinct dates, one beyond retention. -/
def histUnsorted : List HistEntry :=
  [ { date := -5, metrics := [], projects := [] }
  , { date := -400, metrics := [], projects := [] } ]

/-! ### C1 — window lookback -/

/-- C1 counterexample: the single history entry is dated on or before
`today - 7` and has no `boinc_credits` key, yet `get_value_days_ago` returns
`some 0` — the code (line 322, `.get(key, 0)`) fabricates a zero where the
claim requires an absent result. -/
theorem c1_lookback_counterexample :
    get_value_days_ago 0 histNoKey 7 boincCreditsKey = some 0 ∧
    (∀ h ∈ histNoKey, h.date ≤ 0 - 7 ∧ h.metrics.lookup boincCreditsKey = none) ∧
    get_value_days_ago 0 histNoKey 7 boincCreditsKey ≠ none := by decide

/-- C1 (amended): on a strictly date-sorted series, the lookback returns the
value of the latest entry dated on or before `today - days`, defaulting a
missing top-level metric key to `0` (not to an absent result); it returns
nothing exactly when no entry is dated on or before the target.  The nested
per-sub-project 30-day lookback, by contrast, keeps a missing sub-project key
absent. -/
theorem c1_lookback_amended (today : Int) (hist : List HistEntry) (days : Int)
    (key : String) (hs : hist.Pairwise (fun a b => a.date < b.date)) :
    ((∀ h ∈ hist, today - days < h.date) →
        get_value_days_ago today hist days key = none) ∧
    (∀ e ∈ hist, e.date ≤ today - days →
      (∀ e' ∈ hist, e'.date ≤ today - days → e'.date ≤ e.date) →
        get_value_days_ago today hist days key =
          some ((e.metrics.lookup key).getD 0)) ∧
    (∀ e ∈ hist, e.date ≤ today - 30 →
      (∀ e' ∈ hist, e'.date ≤ today - 30 → e'.date ≤ e.date) →
      e.projects.lookup key = none →
        get_project_value_30d_ago today hist key = none) := by
  refine ⟨?_, ?_, ?_⟩
  · intro hall
    have h0 : hist.filter (fun h => decide (h.date ≤ today - days)) = [] := by
      rw [List.filter_eq_nil_iff]
      intro x hx hxt
      simp only [decide_eq_true_eq] at hxt
      have := hall x hx
      omega
    simp only [get_value_days_ago]
    rw [h0]
    rfl
  · intro e he het hmax
    simp only [get_value_days_ago]
    rw [filter_le_getLast_of_max hs he het hmax]
  · intro e he het hmax hnone
    simp only [get_project_value_30d_ago]
    rw [filter_le_getLast_of_max hs he het hmax]
    exact hnone

/-- C1 witness: at `today = 0`, `days = 7` on `histC1`, the entry dated `-20`
is the latest one on or before the target and its value `5` is returned. -/
theorem c1_lookback_witness :
    histC1.Pairwise (fun a b => a.date < b.date) ∧
    (((∀ h ∈ histC1, 0 - 7 < h.date) →
        get_value_days_ago 0 histC1 7 boincCreditsKey = none) ∧
    (∀ e ∈ histC1, e.date ≤ 0 - 7 →
      (∀ e' ∈ histC1, e'.date ≤ 0 - 7 → e'.date ≤ e.date) →
        get_value_days_ago 0 histC1 7 boincCreditsKey =
          some ((e.metrics.lookup boincCreditsKey).getD 0)) ∧
    (∀ e ∈ histC1, e.date ≤ 0 - 30 →
      (∀ e' ∈ histC1, e'.date ≤ 0 - 30 → e'.date ≤ e.date) →
      e.projects.lookup boincCreditsKey = none →
        get_project_value_30d_ago 0 histC1 boincCreditsKey = none)) :=
  ⟨by decide, c1_lookback_amended 0 histC1 7 boincCreditsKey (by decide)⟩

/-! ### C6 — insufficient-data policy -/

/-- C6 counterexample: two entries sharing a single distinct date.  The claim
("fewer than 2 distinct dates") would demand the insufficient-data report, but
the code tests `len(history) < 2`, so it computes full trends here. -/
theorem c6_insufficient_counterexample :
    (∀ a ∈ histDupDate, ∀ b ∈ histDupDate, a.date = b.date) ∧
    2 ≤ histDupDate.length ∧
    (calculate_trends 0 histDupDate cur0).status = none ∧
    (calculate_trends 0 histDupDate cur0).boinc ≠ none := by
  refine ⟨by decide, by decide, ?_, ?_⟩ <;>
    simp [calculate_trends, histDupDate, cur0]

/-- C6 (amended): with fewer than 2 history *entries* the engine returns the
insufficient-data report — point count and series bounds only, no trend
blocks — as a normal value. -/
theorem c6_insufficient_amended (today : Int) (hist : List HistEntry)
    (cur : CurrentStats) (h : hist.length < 2) :
    calculate_trends today hist cur =
      { data_points := hist.length
        history_start := hist.head?.map (fun e => e.date)
        history_end := hist.getLast?.map (fun e => e.date)
        status := some insufficientStatus
        message := some insufficientMessage
        boinc := none
        milestones := none
        fah := none
        most_active_projects := none } := by
  simp [calculate_trends, h]

/-- C6 witness: a single-entry series (first-ever run) is flagged
insufficient. -/
theorem c6_insufficient_witness :
    histNoKey.length < 2 ∧
    calculate_trends 0 histNoKey cur0 =
      { data_points := histNoKey.length
        history_start := histNoKey.head?.map (fun e => e.date)
        history_end := histNoKey.getLast?.map (fun e => e.date)
        status := some insufficientStatus
        message := some insufficientMessage
        boinc := none
        milestones := none
        fah := none
        most_active_projects := none } :=
  ⟨by decide, c6_insufficient_amended 0 histNoKey cur0 (by decide)⟩

/-! ### C10 — empty history is safe -/

/-- C10: on the empty series the engine returns normally, with 0 data points,
absent `history_start`/`history_end`, and the insufficient-data status. -/
theorem c10_empty_history_safe (today : Int) (cur : CurrentStats) :
    calculate_trends today [] cur =
      { data_points := 0
        history_start := none
        history_end := none
        status := some insufficientStatus
        message := some insufficientMessage
        boinc := none
        milestones := none
        fah := none
        most_active_projects := none } := rfl

/-! ### C8 — purity / clock dependence -/

/-- C8 counterexample: the engine reads the ambient date (`date.today()` inside
`calculate_trends`); on the very same series and snapshot, two runs under
different ambient dates return different reports. -/
theorem c8_purity_counterexample :
    (calculate_trends 0 histWin curWin).boinc ≠ (calculate_trends 20 histWin curWin).boinc := by
  decide

/-- C8 (amended): the engine is a pure function of series, snapshot *and* the
ambient current date (modelled as the explicit `today` argument, since the code
reads the system clock inside); the clock affects only the computed trend
blocks — the point count, series bounds and insufficiency status are
independent of it. -/
theorem c8_purity_amended (t₁ t₂ : Int) (hist : List HistEntry) (cur : CurrentStats) :
    (calculate_trends t₁ hist cur).data_points = (calculate_trends t₂ hist cur).data_points ∧
    (calculate_trends t₁ hist cur).history_start = (calculate_trends t₂ hist cur).history_start ∧
    (calculate_trends t₁ hist cur).history_end = (calculate_trends t₂ hist cur).history_end ∧
    (calculate_trends t₁ hist cur).status = (calculate_trends t₂ hist cur).status := by
  unfold calculate_trends
  by_cases h : hist.length < 2 <;> simp [h]

/-! ### C9 — provider-failure recovery -/

/-- C9 counterexample: in `fetch_wcg_stats.py` a failed fetch yields the empty
dict, and `main` then runs `exit(1)` — the failure aborts the run instead of
being recovered by an empty/zero record. -/
theorem c9_recovery_counterexample :
    wcg_run none = Except.error wcgNoDataMessage := rfl

/-- C9 (amended): in `fetch_stats.py` a failed BOINC fetch is recovered — the
project contributes its configured fallback credits (or 0 when the fallback is
missing or zero) and is marked not live, and the run continues; in
`fetch_wcg_stats.py`, however, a failed WCG fetch aborts the run with exit
code 1 instead of substituting an empty record. -/
theorem c9_recovery_amended (cfg : ProjConfig) :
    project_live_credits cfg none = (cfg.fallback_credits.getD 0, false) ∧
    wcg_run none = Except.error wcgNoDataMessage := by
  refine ⟨?_, rfl⟩
  cases h : cfg.fallback_credits with
  | none => simp [project_live_credits, h]
  | some fb =>
      by_cases hfb : fb = (0 : Int) <;> simp [project_live_credits, h, hfb]

/-! ### C3 / C5 — append-or-replace invariants -/

/-- The comparison `update_history` sorts by is transitive. -/
theorem dateLe_trans (a b c : HistEntry) :
    (decide (a.date ≤ b.date)) = true → (decide (b.date ≤ c.date)) = true →
    (decide (a.date ≤ c.date)) = true := by
  simp only [decide_eq_true_eq]
  omega

/-- The comparison `update_history` sorts by is total. -/
theorem dateLe_total (a b : HistEntry) :
    ((decide (a.date ≤ b.date)) || (decide (b.date ≤ a.date))) = true := by
  simp only [Bool.or_eq_true, decide_eq_true_eq]
  omega

/-- Dropping one entry per date: if `d` occurs among the (pairwise distinct)
dates of `S`, filtering `date ≠ d` removes exactly one entry. -/
theorem length_filter_ne_date :
    ∀ (S : List HistEntry) (d : Int), (S.map (fun h => h.date)).Nodup →
      d ∈ S.map (fun h => h.date) →
      (S.filter (fun h => h.date != d)).length + 1 = S.length := by
  intro S d
  induction S with
  | nil =>
      intro _ hd
      simp at hd
  | cons a rest ih =>
      intro hnd hd
      have hnd' : (rest.map (fun h => h.date)).Nodup ∧
          a.date ∉ rest.map (fun h => h.date) := by
        rw [List.map_cons, List.nodup_cons] at hnd
        exact ⟨hnd.2, hnd.1⟩
      by_cases had : a.date = d
      · have hrest : ∀ x ∈ rest, (x.date != d) = true := by
          intro x hx
          simp only [bne_iff_ne, ne_eq]
          intro hxd
          exact hnd'.2 (List.mem_map.mpr ⟨x, hx, by omega⟩)
        rw [List.filter_cons_of_neg (by simp [had]), List.filter_eq_self.mpr hrest]
        simp
      · have hd' : d ∈ rest.map (fun h => h.date) := by
          rcases List.mem_map.mp hd with ⟨x, hx, hxd⟩
          rcases List.mem_cons.mp hx with rfl | hxr
          · exact absurd hxd had
          · exact List.mem_map.mpr ⟨x, hxr, hxd⟩
        have := ih hnd'.1 hd'
        rw [List.filter_cons_of_pos (by simp [had])]
        simp only [List.length_cons]
        omega

/-- C3 counterexample: an input series with two entries sharing the date
`today - 5` (≠ the new entry's date).  The code removes only entries carrying
the new entry's date, so both survive the sort and the result is not strictly
increasing — `append_or_replace` does not restore the invariant. -/
theorem c3_invariant_counterexample :
    update_history 0 histDupDate newEntryToday = histDupDate ++ [newEntryToday] ∧
    ¬ (histDupDate ++ [newEntryToday]).Pairwise (fun a b => a.date < b.date) := by
  constructor
  · unfold update_history
    rw [List.mergeSort_of_sorted (by decide)]
    decide
  · decide

/-- C3 (amended): when the input series' dates are pairwise distinct — even
unsorted — append-or-replace yields a series with strictly increasing dates;
and for every input whatsoever (duplicate dates included) every retained entry
is dated within the retention window `today - HISTORY_MAX_DAYS`. -/
theorem c3_invariant_amended (today : Int) (existing : List HistEntry)
    (new_entry : HistEntry) :
    ((existing.map (fun h => h.date)).Nodup →
      (update_history today existing new_entry).Pairwise (fun a b => a.date < b.date)) ∧
    ∀ h ∈ update_history today existing new_entry,
      today - HISTORY_MAX_DAYS ≤ h.date := by
  constructor
  · intro hnd
    have hnd₁ : ((existing.filter (fun h => h.date != new_entry.date)).map
        (fun h => h.date)).Nodup :=
      hnd.sublist ((List.filter_sublist existing).map (fun h => h.date))
    have hdisj : new_entry.date ∉
        (existing.filter (fun h => h.date != new_entry.date)).map (fun h => h.date) := by
      intro hmem
      rcases List.mem_map.mp hmem with ⟨x, hx, hxd⟩
      have := (List.mem_filter.mp hx).2
      simp only [bne_iff_ne, ne_eq] at this
      exact this hxd
    have hnd₂ : (((existing.filter (fun h => h.date != new_entry.date)) ++ [new_entry]).map
        (fun h => h.date)).Nodup := by
      rw [List.map_append]
      exact List.Nodup.append hnd₁ (List.nodup_singleton _)
        (fun a ha hb => by
          simp only [List.map_cons, List.map_nil, List.mem_singleton] at hb
          exact hdisj (hb ▸ ha))
    have hperm := List.mergeSort_perm
      ((existing.filter (fun h => h.date != new_entry.date)) ++ [new_entry])
      (fun a b => decide (a.date ≤ b.date))
    have hnd₃ : ((((existing.filter (fun h => h.date != new_entry.date)) ++ [new_entry]).mergeSort
        (fun a b => decide (a.date ≤ b.date))).map (fun h => h.date)).Nodup :=
      ((hperm.map (fun h => h.date)).nodup_iff).mpr hnd₂
    have hle := List.sorted_mergeSort dateLe_trans dateLe_total
      ((existing.filter (fun h => h.date != new_entry.date)) ++ [new_entry])
    have hlt : ((((existing.filter (fun h => h.date != new_entry.date)) ++ [new_entry]).mergeSort
        (fun a b => decide (a.date ≤ b.date))).Pairwise (fun a b => a.date < b.date)) := by
      have hpw_le := hle.imp (fun {a b} h => by
        simpa only [decide_eq_true_eq] using h)
      have hpw_ne := (List.pairwise_map.mp hnd₃).imp (fun {a b} h => h)
      exact (hpw_le.and hpw_ne).imp (fun {a b} h => lt_of_le_of_ne h.1 h.2)
    exact hlt.filter _
  · intro h hm
    have := (List.mem_filter.mp hm).2
    simpa only [decide_eq_true_eq] using this

/-- C3 witness: an unsorted three-date input is re-sorted, trimmed to the
retention window, and ends strictly increasing. -/
theorem c3_invariant_witness :
    (histUnsorted.map (fun h => h.date)).Nodup ∧
    (update_history 0 histUnsorted newEntryToday).Pairwise
        (fun a b => a.date < b.date) ∧
    ∀ h ∈ update_history 0 histUnsorted newEntryToday,
      0 - HISTORY_MAX_DAYS ≤ h.date :=
  ⟨by decide,
    (c3_invariant_amended 0 histUnsorted newEntryToday).1 (by decide),
    (c3_invariant_amended 0 histUnsorted newEntryToday).2⟩

/-- A series containing an entry beyond the retention window plus one for
today (for the C5 counterexample). -/
def histWithOld : List HistEntry :=
  [ { date := -400, metrics := [], projects := [] }
  , { date := 0, metrics := [(boincCreditsKey, 1)], projects := [] } ]

/-- A replacement snapshot for the date already present in `histWin`. -/
def replWin : HistEntry := { date := 0, metrics := [(boincCreditsKey, 300)], projects := [] }

/-- C5 counterexample: the snapshot's date is present in the series, yet the
result is shorter than the input — `update_history` also trims, so a series
holding an entry older than the retention window shrinks on replacement. -/
theorem c5_replace_counterexample :
    newEntryToday.date ∈ histWithOld.map (fun h => h.date) ∧
    histWithOld.length = 2 ∧
    (update_history 0 histWithOld newEntryToday).length = 1 := by
  refine ⟨by decide, by decide, ?_⟩
  unfold update_history
  rw [List.mergeSort_of_sorted (by decide)]
  decide

/-- C5 (amended): on a series with pairwise-distinct dates all within the
retention window, a snapshot whose date is already present replaces that
entry — same length, the entry for that date now equals the snapshot — and a
snapshot with a fresh in-window date is inserted, growing the series by one. -/
theorem c5_append_or_replace_amended (today : Int) (S : List HistEntry) (X : HistEntry)
    (hnd : (S.map (fun h => h.date)).Nodup)
    (hret : ∀ h ∈ S, today - HISTORY_MAX_DAYS ≤ h.date) :
    (X.date ∈ S.map (fun h => h.date) →
      (update_history today S X).length = S.length ∧
      X ∈ update_history today S X ∧
      ∀ h ∈ update_history today S X, h.date = X.date → h = X) ∧
    (X.date ∉ S.map (fun h => h.date) → today - HISTORY_MAX_DAYS ≤ X.date →
      (update_history today S X).length = S.length + 1 ∧
      X ∈ update_history today S X) := by
  have hmem₂ : ∀ h ∈ (S.filter (fun h => h.date != X.date)) ++ [X], h ∈ S ∨ h = X := by
    intro h hm
    rcases List.mem_append.mp hm with h1 | h2
    · exact Or.inl (List.mem_filter.mp h1).1
    · exact Or.inr (List.mem_singleton.mp h2)
  have hX₃ : X ∈ ((S.filter (fun h => h.date != X.date)) ++ [X]).mergeSort
      (fun a b => decide (a.date ≤ b.date)) :=
    List.mem_mergeSort.mpr (List.mem_append.mpr (Or.inr (List.mem_singleton.mpr rfl)))
  have hkeep : today - HISTORY_MAX_DAYS ≤ X.date →
      update_history today S X =
        ((S.filter (fun h => h.date != X.date)) ++ [X]).mergeSort
          (fun a b => decide (a.date ≤ b.date)) := by
    intro hXcut
    unfold update_history
    apply List.filter_eq_self.mpr
    intro h hm
    simp only [decide_eq_true_eq]
    rcases hmem₂ h (List.mem_mergeSort.mp hm) with hS | rfl
    · exact hret h hS
    · exact hXcut
  have hlen₃ : (((S.filter (fun h => h.date != X.date)) ++ [X]).mergeSort
      (fun a b => decide (a.date ≤ b.date))).length =
      (S.filter (fun h => h.date != X.date)).length + 1 := by
    rw [List.length_mergeSort]
    simp
  constructor
  · intro hmemd
    have hXcut : today - HISTORY_MAX_DAYS ≤ X.date := by
      rcases List.mem_map.mp hmemd with ⟨x, hx, hxd⟩
      have := hret x hx
      omega
    have heq := hkeep hXcut
    refine ⟨?_, ?_, ?_⟩
    · rw [heq, hlen₃, length_filter_ne_date S X.date hnd hmemd]
    · rw [heq]
      exact hX₃
    · intro h hm hd
      rw [heq] at hm
      rcases hmem₂ h (List.mem_mergeSort.mp hm) with hS | rfl
      · rcases List.mem_append.mp (List.mem_mergeSort.mp hm) with h1 | h2
        · have := (List.mem_filter.mp h1).2
          simp only [bne_iff_ne, ne_eq] at this
          exact absurd hd this
        · exact List.mem_singleton.mp h2
      · rfl
  · intro hnomem hXcut
    have hfid : S.filter (fun h => h.date != X.date) = S := by
      apply List.filter_eq_self.mpr
      intro h hm
      simp only [bne_iff_ne, ne_eq]
      intro hd
      exact hnomem (List.mem_map.mpr ⟨h, hm, hd⟩)
    have heq := hkeep hXcut
    refine ⟨?_, ?_⟩
    · rw [heq, hlen₃, hfid]
    · rw [heq]
      exact hX₃

/-- C5 witness: replacing the `today` entry of the spec's two-day series keeps
the length at 2 and puts the new snapshot at that date; inserting an entry for
a fresh date would grow it instead. -/
theorem c5_append_or_replace_witness :
    (histWin.map (fun h => h.date)).Nodup ∧
    (∀ h ∈ histWin, 0 - HISTORY_MAX_DAYS ≤ h.date) ∧
    ((replWin.date ∈ histWin.map (fun h => h.date) →
      (update_history 0 histWin replWin).length = histWin.length ∧
      replWin ∈ update_history 0 histWin replWin ∧
      ∀ h ∈ update_history 0 histWin replWin, h.date = replWin.date → h = replWin) ∧
    (replWin.date ∉ histWin.map (fun h => h.date) → 0 - HISTORY_MAX_DAYS ≤ replWin.date →
      (update_history 0 histWin replWin).length = histWin.length + 1 ∧
      replWin ∈ update_history 0 histWin replWin)) :=
  ⟨by decide, by decide, c5_append_or_replace_amended 0 histWin replWin (by decide) (by decide)⟩

/-! ### C4 — window deltas and averages -/

/-- With at least two history entries, the report's `boinc` block is the one
built by `boinc_trends_of`. -/
theorem calculate_trends_boinc (today : Int) (hist : List HistEntry)
    (cur : CurrentStats) (h2 : 2 ≤ hist.length) :
    (calculate_trends today hist cur).boinc =
      some (boinc_trends_of today hist cur.boinc_credits) := by
  unfold calculate_trends
  rw [if_neg (by omega)]

/-- C4: for each window in {7, 30, 90}, when the lookback returns a value the
report holds `delta = current - value` and `avg = round(delta / window)`
(round half to even), and when the lookback returns nothing that window is
absent; the all-time average divides the gain since the earliest entry by
`today - earliest.date`, and is absent when that divisor is zero.  In
particular this covers the spec's example (7-day delta 150, average 21). -/
theorem c4_window_deltas (today : Int) (hist : List HistEntry) (cur : CurrentStats)
    (h2 : 2 ≤ hist.length) :
    ∃ bt, (calculate_trends today hist cur).boinc = some bt ∧
      (∀ v, get_value_days_ago today hist 7 boincCreditsKey = some v →
        bt.last_7_days = some (cur.boinc_credits - v) ∧
        bt.avg_per_day_7d = some (pyRound (cur.boinc_credits - v) 7)) ∧
      (get_value_days_ago today hist 7 boincCreditsKey = none →
        bt.last_7_days = none ∧ bt.avg_per_day_7d = none) ∧
      (∀ v, get_value_days_ago today hist 30 boincCreditsKey = some v →
        bt.last_30_days = some (cur.boinc_credits - v) ∧
        bt.avg_per_day_30d = some (pyRound (cur.boinc_credits - v) 30)) ∧
      (get_value_days_ago today hist 30 boincCreditsKey = none →
        bt.last_30_days = none ∧ bt.avg_per_day_30d = none) ∧
      (∀ v, get_value_days_ago today hist 90 boincCreditsKey = some v →
        bt.last_90_days = some (cur.boinc_credits - v) ∧
        bt.avg_per_day_90d = some (pyRound (cur.boinc_credits - v) 90)) ∧
      (get_value_days_ago today hist 90 boincCreditsKey = none →
        bt.last_90_days = none ∧ bt.avg_per_day_90d = none) ∧
      (∀ first, hist.head? = some first →
        (today - first.date = 0 → bt.avg_per_day_alltime = none) ∧
        (0 < today - first.date →
          bt.avg_per_day_alltime = some (pyRound
            (cur.boinc_credits -
              (first.metrics.lookup boincCreditsKey).getD cur.boinc_credits)
            (today - first.date)))) := by
  refine ⟨boinc_trends_of today hist cur.boinc_credits,
    calculate_trends_boinc today hist cur h2, ?_, ?_, ?_, ?_, ?_, ?_, ?_⟩
  · intro v hv
    exact ⟨by simp [boinc_trends_of, hv], by simp [boinc_trends_of, hv]⟩
  · intro hv
    exact ⟨by simp [boinc_trends_of, hv], by simp [boinc_trends_of, hv]⟩
  · intro v hv
    exact ⟨by simp [boinc_trends_of, hv], by simp [boinc_trends_of, hv]⟩
  · intro hv
    exact ⟨by simp [boinc_trends_of, hv], by simp [boinc_trends_of, hv]⟩
  · intro v hv
    exact ⟨by simp [boinc_trends_of, hv], by simp [boinc_trends_of, hv]⟩
  · intro hv
    exact ⟨by simp [boinc_trends_of, hv], by simp [boinc_trends_of, hv]⟩
  · intro first hfirst
    constructor
    · intro h0
      simp [boinc_trends_of, h2, hfirst, h0]
    · intro hpos
      simp [boinc_trends_of, h2, hfirst, hpos]

/-- C4 witness: the spec's example series (`today-10 ↦ 100`, `today ↦ 250`,
current 250); the 7-day lookback finds 100, so the delta is 150 and the
average `round(150/7) = 21`. -/
theorem c4_window_deltas_witness :
    2 ≤ histWin.length ∧
    get_value_days_ago 0 histWin 7 boincCreditsKey = some 100 ∧
    curWin.boinc_credits - 100 = 150 ∧
    pyRound 150 7 = 21 ∧
    (∃ bt, (calculate_trends 0 histWin curWin).boinc = some bt ∧
      (∀ v, get_value_days_ago 0 histWin 7 boincCreditsKey = some v →
        bt.last_7_days = some (curWin.boinc_credits - v) ∧
        bt.avg_per_day_7d = some (pyRound (curWin.boinc_credits - v) 7)) ∧
      (get_value_days_ago 0 histWin 7 boincCreditsKey = none →
        bt.last_7_days = none ∧ bt.avg_per_day_7d = none) ∧
      (∀ v, get_value_days_ago 0 histWin 30 boincCreditsKey = some v →
        bt.last_30_days = some (curWin.boinc_credits - v) ∧
        bt.avg_per_day_30d = some (pyRound (curWin.boinc_credits - v) 30)) ∧
      (get_value_days_ago 0 histWin 30 boincCreditsKey = none →
        bt.last_30_days = none ∧ bt.avg_per_day_30d = none) ∧
      (∀ v, get_value_days_ago 0 histWin 90 boincCreditsKey = some v →
        bt.last_90_days = some (curWin.boinc_credits - v) ∧
        bt.avg_per_day_90d = some (pyRound (curWin.boinc_credits - v) 90)) ∧
      (get_value_days_ago 0 histWin 90 boincCreditsKey = none →
        bt.last_90_days = none ∧ bt.avg_per_day_90d = none) ∧
      (∀ first, histWin.head? = some first →
        (0 - first.date = 0 → bt.avg_per_day_alltime = none) ∧
        (0 < 0 - first.date →
          bt.avg_per_day_alltime = some (pyRound
            (curWin.boinc_credits -
              (first.metrics.lookup boincCreditsKey).getD curWin.boinc_credits)
            (0 - first.date))))) :=
  ⟨by decide, by decide, by decide, by decide,
    c4_window_deltas 0 histWin curWin (by decide)⟩

/-! ### C2 — milestone projection -/

/-- With at least two history entries, the report's `milestones` list is the one
built by `milestones_of`. -/
theorem calculate_trends_milestones (today : Int) (hist : List HistEntry)
    (cur : CurrentStats) (h2 : 2 ≤ hist.length) :
    (calculate_trends today hist cur).milestones =
      some (milestones_of today hist cur.boinc_credits) := by
  unfold calculate_trends
  rw [if_neg (by omega)]

/-- History giving a present-but-zero 30-day average next to a positive 7-day
average (credits dip and recover inside the window). -/
def histZero30 : List HistEntry :=
  [ { date := -40, metrics := [(boincCreditsKey, 200)], projects := [] }
  , { date := -10, metrics := [(boincCreditsKey, 100)], projects := [] } ]

/-- Current snapshot matching `histZero30`'s 40-day-old credit level. -/
def curZero30 : CurrentStats := { boinc_credits := 200, fah_score := 0, projects := [] }

/-- C2 counterexample: the 30-day average is present and equals 0, so by the
claim's preference order the chosen daily average would be 0 and all
projections must be omitted; but Python's `or`-chain skips the falsy 0, picks
the positive 7-day average, and the code emits a non-empty milestone list. -/
theorem c2_milestones_counterexample :
    (calculate_trends 0 histZero30 curZero30).boinc =
      some { last_7_days := some 100, avg_per_day_7d := some 14
             last_30_days := some 0, avg_per_day_30d := some 0
             last_90_days := none, avg_per_day_90d := none
             avg_per_day_alltime := some 0 } ∧
    (calculate_trends 0 histZero30 curZero30).milestones ≠ some [] ∧
    (calculate_trends 0 histZero30 curZero30).milestones ≠ none := by
  refine ⟨by decide, by decide, by decide⟩

/-- C2 (amended): the daily average is chosen by Python's `or`-chain — the
first of the 30-day, 7-day and all-time averages that is present *and
non-zero*, else 0.  When the chosen average is ≤ 0 the milestone list is
empty; otherwise it holds exactly the thresholds strictly above the current
credits, in ascending order, each with `remaining = target - current`,
`days_to_reach = remaining // daily_avg` (floor) and
`estimated_date = today + days_to_reach`. -/
theorem c2_milestones_amended (today : Int) (hist : List HistEntry) (cur : CurrentStats)
    (h2 : 2 ≤ hist.length) :
    ∃ bt ms, (calculate_trends today hist cur).boinc = some bt ∧
      (calculate_trends today hist cur).milestones = some ms ∧
      (pyOrInt bt.avg_per_day_30d
          (pyOrInt bt.avg_per_day_7d (pyOrInt bt.avg_per_day_alltime 0)) ≤ 0 →
        ms = []) ∧
      (0 < pyOrInt bt.avg_per_day_30d
          (pyOrInt bt.avg_per_day_7d (pyOrInt bt.avg_per_day_alltime 0)) →
        ms.map (fun m => m.target) =
          milestone_targets.filter (fun t => decide (cur.boinc_credits < t)) ∧
        ms.Pairwise (fun a b => a.target < b.target) ∧
        ∀ m ∈ ms,
          cur.boinc_credits < m.target ∧
          m.remaining = m.target - cur.boinc_credits ∧
          m.days_to_reach = m.remaining.fdiv
            (pyOrInt bt.avg_per_day_30d
              (pyOrInt bt.avg_per_day_7d (pyOrInt bt.avg_per_day_alltime 0))) ∧
          m.estimated_date = today + m.days_to_reach) := by
  refine ⟨boinc_trends_of today hist cur.boinc_credits,
    milestones_of today hist cur.boinc_credits,
    calculate_trends_boinc today hist cur h2,
    calculate_trends_milestones today hist cur h2, ?_, ?_⟩
  · intro hle
    simp only [milestones_of]
    rw [if_neg (by omega)]
  · intro hpos
    simp only [milestones_of]
    rw [if_pos hpos]
    refine ⟨?_, ?_, ?_⟩
    · rw [List.map_map]
      exact List.map_id'' (fun x => rfl) _
    · apply List.pairwise_map.mpr
      have hsorted : milestone_targets.Pairwise (fun a b => a < b) := by decide
      exact hsorted.filter (fun t => decide (cur.boinc_credits < t))
    · intro m hm
      rcases List.mem_map.mp hm with ⟨t, ht, rfl⟩
      have hmem := List.mem_filter.mp ht
      simp only [decide_eq_true_eq] at hmem
      exact ⟨hmem.2, rfl, rfl, rfl⟩

/-- C2 witness: on the spec's two-day example series the chosen daily average
is the 7-day one (21), which is positive, so all four configured thresholds
above 250 are projected. -/
theorem c2_milestones_witness :
    2 ≤ histWin.length ∧
    (∃ bt ms, (calculate_trends 0 histWin curWin).boinc = some bt ∧
      (calculate_trends 0 histWin curWin).milestones = some ms ∧
      (pyOrInt bt.avg_per_day_30d
          (pyOrInt bt.avg_per_day_7d (pyOrInt bt.avg_per_day_alltime 0)) ≤ 0 →
        ms = []) ∧
      (0 < pyOrInt bt.avg_per_day_30d
          (pyOrInt bt.avg_per_day_7d (pyOrInt bt.avg_per_day_alltime 0)) →
        ms.map (fun m => m.target) =
          milestone_targets.filter (fun t => decide (curWin.boinc_credits < t)) ∧
        ms.Pairwise (fun a b => a.target < b.target) ∧
        ∀ m ∈ ms,
          curWin.boinc_credits < m.target ∧
          m.remaining = m.target - curWin.boinc_credits ∧
          m.days_to_reach = m.remaining.fdiv
            (pyOrInt bt.avg_per_day_30d
              (pyOrInt bt.avg_per_day_7d (pyOrInt bt.avg_per_day_alltime 0))) ∧
          m.estimated_date = 0 + m.days_to_reach)) :=
  ⟨by decide, c2_milestones_amended 0 histWin curWin (by decide)⟩

/-! ### C7 — most-active-projects ranking -/

/-- With at least two history entries, the report's `most_active_projects` list
is the one built by `most_active_of`. -/
theorem calculate_trends_most_active (today : Int) (hist : List HistEntry)
    (cur : CurrentStats) (h2 : 2 ≤ hist.length) :
    (calculate_trends today hist cur).most_active_projects =
      some (most_active_of today hist cur) := by
  unfold calculate_trends
  rw [if_neg (by omega)]

/-- The descending-by-gain comparison is transitive. -/
theorem gainGe_trans (a b c : ActiveProject) :
    (decide (b.gain_30d ≤ a.gain_30d)) = true →
    (decide (c.gain_30d ≤ b.gain_30d)) = true →
    (decide (c.gain_30d ≤ a.gain_30d)) = true := by
  simp only [decide_eq_true_eq]
  omega

/-- The descending-by-gain comparison is total. -/
theorem gainGe_total (a b : ActiveProject) :
    ((decide (b.gain_30d ≤ a.gain_30d)) || (decide (a.gain_30d ≤ b.gain_30d))) = true := by
  simp only [Bool.or_eq_true, decide_eq_true_eq]
  omega

/-- Sub-project key of the C7 counterexample. -/
def keyNeg : String := "negproj"

/-- History giving the negative-credit project a positive 30-day gain. -/
def histNeg : List HistEntry :=
  [ { date := -40, metrics := [], projects := [(keyNeg, -2)] }
  , { date := -10, metrics := [], projects := [] } ]

/-- Snapshot whose only project has current credits `-1` (not positive). -/
def curNeg : CurrentStats :=
  { boinc_credits := 0, fah_score := 0
    projects := [(keyNeg, { name := keyNeg, credits := -1 })] }

unseal List.merge List.mergeSort in
/-- C7 counterexample: the only sub-project has a *negative* current value, so
by the claim it must not appear in the ranking; the code only skips
`credits == 0` and, the 30-day delta being positive, ranks it. -/
theorem c7_ranking_counterexample :
    (∀ kp ∈ curNeg.projects, ¬ (0 : Int) < kp.2.credits) ∧
    (calculate_trends 0 histNeg curNeg).most_active_projects =
      some [{ key := keyNeg, name := keyNeg, gain_30d := 1, avg_per_day := 0 }] := by
  refine ⟨by decide, ?_⟩
  rw [calculate_trends_most_active 0 histNeg curNeg (by decide)]
  decide

/-- C7 (amended): the ranking is the 5-element prefix of the stable descending
sort (by 30-day gain) of the activity list; that list holds exactly the
sub-projects of the snapshot with *non-zero* current value whose 30-day
lookback finds a recorded value with a strictly positive gain, each carrying
`gain = current - value_30d_ago` and `avg = round(gain / 30)`; ties keep
encounter order (stability). -/
theorem c7_ranking_amended (today : Int) (hist : List HistEntry) (cur : CurrentStats)
    (h2 : 2 ≤ hist.length) :
    ∃ full : List ActiveProject,
      (calculate_trends today hist cur).most_active_projects = some (full.take 5) ∧
      full.Pairwise (fun a b => b.gain_30d ≤ a.gain_30d) ∧
      full.Perm (project_activity today hist cur) ∧
      (∀ a b : ActiveProject, [a, b].Sublist (project_activity today hist cur) →
        b.gain_30d ≤ a.gain_30d → [a, b].Sublist full) ∧
      (∀ p : ActiveProject, p ∈ full ↔ ∃ kp ∈ cur.projects,
        p.key = kp.1 ∧ p.name = kp.2.name ∧ kp.2.credits ≠ 0 ∧
        ∃ c30, get_project_value_30d_ago today hist kp.1 = some c30 ∧
          p.gain_30d = kp.2.credits - c30 ∧ 0 < p.gain_30d ∧
          p.avg_per_day = pyRound p.gain_30d 30) := by
  refine ⟨(project_activity today hist cur).mergeSort
      (fun a b => decide (b.gain_30d ≤ a.gain_30d)),
    calculate_trends_most_active today hist cur h2, ?_, ?_, ?_, ?_⟩
  · have h := List.sorted_mergeSort gainGe_trans gainGe_total
      (project_activity today hist cur)
    exact h.imp (fun {a b} hab => by simpa using hab)
  · exact List.mergeSort_perm _ _
  · intro a b hsub hle
    exact List.pair_sublist_mergeSort gainGe_trans gainGe_total (by simpa using hle) hsub
  · intro p
    rw [List.mem_mergeSort]
    constructor
    · intro hp
      rcases List.mem_filterMap.mp hp with ⟨kp, hkp, hfk⟩
      refine ⟨kp, hkp, ?_⟩
      dsimp only at hfk
      split at hfk
      · exact Option.noConfusion hfk
      · split at hfk
        · split at hfk
          · rename_i hc hmatch c30 h30 hg
            injection hfk with hfk'
            subst hfk'
            exact ⟨rfl, rfl, by omega, c30, h30, rfl, by simpa using hg, rfl⟩
          · exact Option.noConfusion hfk
        · exact Option.noConfusion hfk
    · rintro ⟨kp, hkp, hkey, hname, hc, c30, h30, hgain, hpos, havg⟩
      apply List.mem_filterMap.mpr
      refine ⟨kp, hkp, ?_⟩
      have hg : (0 : Int) < kp.2.credits - c30 := by
        rw [hgain] at hpos
        exact hpos
      dsimp only
      rw [if_neg hc, h30]
      dsimp only
      rw [if_pos hg]
      obtain ⟨k, n, g, a⟩ := p
      simp only at hkey hname hgain havg
      subst hkey
      subst hname
      subst hgain
      subst havg
      rfl

/-- Three-sub-project example data from the spec: 30-day gains A ↦ 500,
B ↦ 0, C ↦ 1500. -/
def keyA : String := "projA"

def keyB : String := "projB"

def keyC : String := "projC"

/-- History recording the three sub-projects 40 days ago. -/
def histABC : List HistEntry :=
  [ { date := -40, metrics := [], projects := [(keyA, 0), (keyB, 100), (keyC, 0)] }
  , { date := -10, metrics := [], projects := [] } ]

/-- Snapshot with current per-project credits A ↦ 500, B ↦ 100, C ↦ 1500. -/
def curABC : CurrentStats :=
  { boinc_credits := 0, fah_score := 0
    projects := [ (keyA, { name := keyA, credits := 500 })
                , (keyB, { name := keyB, credits := 100 })
                , (keyC, { name := keyC, credits := 1500 }) ] }

unseal List.merge List.mergeSort in
/-- C7 witness: on the spec's example gains `{A: 500, B: 0, C: 1500}` the
ranking is `[C, A]` — B is excluded for its non-positive gain — and the
amended theorem applies. -/
theorem c7_ranking_witness :
    2 ≤ histABC.length ∧
    (calculate_trends 0 histABC curABC).most_active_projects =
      some [ { key := keyC, name := keyC, gain_30d := 1500, avg_per_day := 50 }
           , { key := keyA, name := keyA, gain_30d := 500, avg_per_day := 17 } ] ∧
    (∃ full : List ActiveProject,
      (calculate_trends 0 histABC curABC).most_active_projects = some (full.take 5) ∧
      full.Pairwise (fun a b => b.gain_30d ≤ a.gain_30d) ∧
      full.Perm (project_activity 0 histABC curABC) ∧
      (∀ a b : ActiveProject, [a, b].Sublist (project_activity 0 histABC curABC) →
        b.gain_30d ≤ a.gain_30d → [a, b].Sublist full) ∧
      (∀ p : ActiveProject, p ∈ full ↔ ∃ kp ∈ curABC.projects,
        p.key = kp.1 ∧ p.name = kp.2.name ∧ kp.2.credits ≠ 0 ∧
        ∃ c30, get_project_value_30d_ago 0 histABC kp.1 = some c30 ∧
          p.gain_30d = kp.2.credits - c30 ∧ 0 < p.gain_30d ∧
          p.avg_per_day = pyRound p.gain_30d 30)) :=
  ⟨by decide,
    by
      rw [calculate_trends_most_active 0 histABC curABC (by decide)]
      decide,
    c7_ranking_amended 0 histABC curABC (by decide)⟩

end Dashboard
